import Mathlib

/-!
# Verification of the stunk reactive state engine

Shallow embedding of the core of the `stunk` reactive state library
(`src/core/core.ts`, `src/core/computed.ts`, `src/core/selector.ts`,
`src/core/asyncChunk.ts`, `src/middleware/history.ts`, `src/utils.ts`)
together with proofs and refutations of the specification claims.

Values held in cells are modelled as `Int` (JavaScript numbers compared with
`===` become decidable equality on `Int`; the `typeof v === 'object'`
branches of the source are statically false for numbers, so the
shallow-equality paths for plain records never fire in these models and are
omitted where the guard rules them out).  Callbacks are identified by
numeric tags (JavaScript `Set<Subscriber>` keyed by function identity
becomes a duplicate-free list of tags); an invocation of a subscriber is
recorded in an append-only log instead of performing observable I/O.
-/

namespace Stunk

/-! ## Single-cell model: value, subscriber set, notification log

Embeds the per-cell state of `chunk` in `src/core/core.ts` (the variant with
`isValidType`, lines 48–159).  `SubSt.log` records every invocation of a
subscriber as a pair `(callback tag, argument)`. -/

structure SubSt where
  value : Int
  subs : List Nat
  log : List (Nat × Int)
deriving Repr, DecidableEq

/-- `subscribe` of `chunk` (core.ts lines 114–121): `subscribers.add(callback)`
(a JS `Set` ignores a re-added element, keeping its original position) and
then `callback(value)` — the callback is invoked immediately with the
current value, even when it was already subscribed. -/
def subscribeM (cb : Nat) (s : SubSt) : SubSt :=
  { s with
    subs := if cb ∈ s.subs then s.subs else s.subs ++ [cb]
    log := s.log ++ [(cb, s.value)] }

/-- The unsubscribe closure returned by `subscribe`:
`() => subscribers.delete(callback)`. -/
def unsubscribeM (cb : Nat) (s : SubSt) : SubSt :=
  { s with subs := s.subs.erase cb }

/-- `notify` (core.ts lines 60–62): `subscribers.forEach(s => s(value))`. -/
def notifyM (s : SubSt) : SubSt :=
  { s with log := s.log ++ s.subs.map (fun cb => (cb, s.value)) }

/-- `set` of `chunk` (core.ts lines 77–112) for a literal value and an empty
middleware list: `processMiddleware` is the identity, the `!==` change check
keeps the old state on an equal value, and `notifySubscribers`
(lines 66–73) skips the whole notification when there are no subscribers
(`if (subscribers.size === 0) return`) and otherwise notifies immediately
(the non-batching path). -/
def setM (v : Int) (s : SubSt) : SubSt :=
  if v = s.value then s
  else
    let s' := { s with value := v }
    if s'.subs.isEmpty then s' else notifyM s'

/-! ## Middleware pipeline

Embeds `processMiddleware` from `src/utils.ts` (the callback-`next` variant,
lines 350–379) and `set` of core.ts lines 77–112 run through it.  A
middleware `(value, next) => void` is modelled by its observable behaviour
on a value: it either calls `next` with a transformed value, returns
without calling `next`, or throws. -/

inductive MwRes where
  | cont : Int → MwRes
  | stop : MwRes
  | raise : MwRes
deriving Repr, DecidableEq

/-- A middleware, by what it does with the candidate value. -/
def Mw : Type := Int → MwRes

/-- `processMiddleware` (utils.ts lines 350–379): walk the list; a
middleware that calls `next` continues with the transformed value (the
source's null/undefined re-check cannot fire for numbers), one that does
not call `next` breaks out of the loop — the value accumulated **so far**
is returned; one that throws propagates the exception. -/
def processMiddleware (v : Int) : List Mw → Except Unit Int
  | [] => .ok v
  | m :: rest =>
    match m v with
    | .cont v' => processMiddleware v' rest
    | .stop => .ok v
    | .raise => .error ()

/-- `set` with a middleware pipeline (core.ts lines 77–112): an exception
from `processMiddleware` propagates out of `set` before the value is
touched; otherwise the processed value is applied through the usual change
check and notification. -/
def setWithMw (mws : List Mw) (v : Int) (s : SubSt) : Except Unit SubSt :=
  match processMiddleware v mws with
  | .error e => .error e
  | .ok pv => .ok (setM pv s)

/-- A middleware that never calls `next` (terminates the chain). -/
def vetoMw : Mw := fun _ => .stop

/-- A middleware that throws. -/
def throwMw : Mw := fun _ => .raise

/-- A middleware that calls `next` with a transformed value. -/
def contMw (f : Int → Int) : Mw := fun v => .cont (f v)

end Stunk

namespace Stunk

/-! ### Theorems: subscription (C4, C10) and middleware (C5) -/

/-- **C4, counterexample.** `subscribe` does fire at subscription time: on a
cell holding `5` with no subscribers, subscribing callback `0` produces a
non-empty invocation log — the callback is invoked exactly once, immediately,
with the current value `5`.  The claim "registers the callback without
invoking it at subscription time … the current value is never replayed"
is false on the code (`subscribe` runs `subscribers.add(callback);
callback(value);`). -/
theorem subscribe_fires_immediately :
    (subscribeM 0 ⟨5, [], []⟩).log = [(0, 5)] ∧
      (subscribeM 0 ⟨5, [], []⟩).log ≠ [] := by
  constructor
  · rfl
  · decide

/-- **C4, amended.** `subscribe(callback)` registers the callback (adding it
to the subscriber set if absent) and invokes it exactly once immediately at
subscription time with the current value; afterwards it is invoked only as a
consequence of later value changes: a `set` with an unchanged value invokes
nobody, and a `set` that changes the value invokes each registered
subscriber once with the new value. -/
theorem subscribe_immediate_then_changes (s : SubSt) (cb : Nat) (v : Int) :
    (subscribeM cb s).subs = (if cb ∈ s.subs then s.subs else s.subs ++ [cb]) ∧
    (subscribeM cb s).log = s.log ++ [(cb, s.value)] ∧
    setM s.value s = s ∧
    (v ≠ s.value → (setM v s).log =
      s.log ++ s.subs.map (fun c => (c, v))) := by
  refine ⟨rfl, rfl, by simp [setM], fun hv => ?_⟩
  simp only [setM, if_neg hv]
  by_cases hempty : s.subs.isEmpty
  · simp [hempty, List.isEmpty_iff.mp hempty]
  · simp [hempty, notifyM]

/-- Witness for `subscribe_immediate_then_changes` at a concrete cell. -/
theorem subscribe_immediate_then_changes_witness :
    (subscribeM 3 ⟨7, [1], []⟩).subs = (if 3 ∈ [1] then [1] else [1] ++ [3]) ∧
    (subscribeM 3 ⟨7, [1], []⟩).log = [] ++ [(3, 7)] ∧
    setM 7 ⟨7, [1], []⟩ = ⟨7, [1], []⟩ ∧
    ((9 : Int) ≠ 7 → (setM 9 ⟨7, [1], []⟩).log =
      [] ++ [1].map (fun c => (c, (9 : Int)))) :=
  subscribe_immediate_then_changes ⟨7, [1], []⟩ 3 9

/-- **C10.** Subscription is idempotent: subscribing a callback that is
already subscribed leaves the subscriber set unchanged (a single
registration, since the JS `Set` is keyed by callback identity), a
subsequent value-changing `set` invokes it exactly once, the unsubscribe
closure removes it entirely, and running the other unsubscribe closure
afterwards is a no-op. -/
theorem subscribe_idempotent (s : SubSt) (cb : Nat) (v : Int)
    (hmem : cb ∈ s.subs) (hnd : s.subs.Nodup) (hv : v ≠ s.value) :
    (subscribeM cb s).subs = s.subs ∧
    (subscribeM cb s).subs.count cb = 1 ∧
    (((setM v (subscribeM cb s)).log.drop (subscribeM cb s).log.length).countP
        (fun e => e.1 == cb)) = 1 ∧
    cb ∉ (unsubscribeM cb (subscribeM cb s)).subs ∧
    unsubscribeM cb (unsubscribeM cb (subscribeM cb s)) =
      unsubscribeM cb (subscribeM cb s) := by
  have hcount : s.subs.count cb = 1 :=
    List.count_eq_one_of_mem hnd hmem
  have hne : s.subs ≠ [] := by
    intro h; rw [h] at hmem; cases hmem
  have hsub : subscribeM cb s =
      { value := s.value, subs := s.subs, log := s.log ++ [(cb, s.value)] } := by
    simp [subscribeM, hmem]
  refine ⟨by rw [hsub], by rw [hsub]; exact hcount, ?_, ?_, ?_⟩
  · -- exactly one invocation of `cb` among the notifications of the set
    rw [hsub]
    simp only [setM, if_neg hv, List.isEmpty_eq_true, hne, if_neg,
      not_false_eq_true, notifyM]
    rw [List.drop_left, List.countP_map]
    have : ((fun e => e.1 == cb) ∘ fun c => ((c, v) : Nat × Int)) =
        (fun c => c == cb) := by
      funext c; simp
    rw [this, ← List.count]
    exact hcount
  · rw [hsub]
    simpa [unsubscribeM] using hnd.not_mem_erase
  · rw [hsub]
    have : cb ∉ s.subs.erase cb := hnd.not_mem_erase
    simp [unsubscribeM, List.erase_of_not_mem this]

/-- **C5, counterexample.** A middleware veto does **not** retain the prior
value: on a cell holding `0` with subscriber `7`, a `set(5)` through the
single middleware that terminates the chain (never calls `next`) still
updates the value to `5` and notifies the subscriber —
`processMiddleware` merely `break`s out of its loop and returns the
candidate value accumulated so far, which `set` then applies.  The claim
"set leaves the cell's prior value retained and unchanged and does not
notify subscribers" is false on the code. -/
theorem middleware_veto_still_applies :
    setWithMw [vetoMw] 5 ⟨0, [7], []⟩ = .ok ⟨5, [7], [(7, 5)]⟩ ∧
      (⟨5, [7], [(7, 5)]⟩ : SubSt).value ≠ (⟨0, [7], []⟩ : SubSt).value := by
  constructor
  · rfl
  · decide

/-- **C5, amended.** When a middleware terminates the chain by not calling
`next`, processing stops there and `set` proceeds with the candidate value
as transformed by the middleware already run (applying it and notifying if
it differs from the current value) — the prior value is not specially
retained.  A middleware that throws aborts the pipeline: the error
propagates synchronously out of `set` and the cell's value is unchanged
with no subscriber notified. -/
theorem middleware_pipeline_semantics (f : Int → Int) (rest : List Mw)
    (v : Int) (s : SubSt) (pv : Int) :
    processMiddleware v (vetoMw :: rest) = .ok v ∧
    processMiddleware v (contMw f :: rest) = processMiddleware (f v) rest ∧
    processMiddleware v (throwMw :: rest) = .error () ∧
    setWithMw (vetoMw :: rest) v s = .ok (setM v s) ∧
    setWithMw (throwMw :: rest) v s = .error () ∧
    (processMiddleware v rest = .ok pv →
      setWithMw rest v s = .ok (setM pv s)) := by
  refine ⟨rfl, rfl, rfl, rfl, rfl, fun h => ?_⟩
  simp [setWithMw, h]

/-- Witness for `middleware_pipeline_semantics` at concrete inputs. -/
theorem middleware_pipeline_semantics_witness :
    processMiddleware 5 (vetoMw :: [contMw (· + 1)]) = .ok 5 ∧
    processMiddleware 5 (contMw (· + 1) :: [contMw (· + 1)]) =
      processMiddleware ((5 : Int) + 1) [contMw (· + 1)] ∧
    processMiddleware 5 (throwMw :: [contMw (· + 1)]) = .error () ∧
    setWithMw (vetoMw :: [contMw (· + 1)]) 5 ⟨0, [7], []⟩ =
      .ok (setM 5 ⟨0, [7], []⟩) ∧
    setWithMw (throwMw :: [contMw (· + 1)]) 5 ⟨0, [7], []⟩ = .error () ∧
    (processMiddleware 5 [contMw (· + 1)] = .ok 6 →
      setWithMw [contMw (· + 1)] 5 ⟨0, [7], []⟩ = .ok (setM 6 ⟨0, [7], []⟩)) :=
  middleware_pipeline_semantics (· + 1) [contMw (· + 1)] 5 ⟨0, [7], []⟩ 6

/-- Witness for `subscribe_idempotent` at a concrete cell. -/
theorem subscribe_idempotent_witness :
    (subscribeM 2 ⟨4, [1, 2], []⟩).subs = [1, 2] ∧
    (subscribeM 2 ⟨4, [1, 2], []⟩).subs.count 2 = 1 ∧
    (((setM 9 (subscribeM 2 ⟨4, [1, 2], []⟩)).log.drop
        (subscribeM 2 ⟨4, [1, 2], []⟩).log.length).countP
        (fun e => e.1 == 2)) = 1 ∧
    2 ∉ (unsubscribeM 2 (subscribeM 2 ⟨4, [1, 2], []⟩)).subs ∧
    unsubscribeM 2 (unsubscribeM 2 (subscribeM 2 ⟨4, [1, 2], []⟩)) =
      unsubscribeM 2 (subscribeM 2 ⟨4, [1, 2], []⟩) :=
  subscribe_idempotent ⟨4, [1, 2], []⟩ 2 9 (by decide) (by decide) (by decide)

end Stunk

namespace Stunk

/-! ## Absent-value sentinels (C6)

JavaScript distinguishes `undefined` (fully absent) from `null` (explicit
empty marker).  `JsVal` models a value slot that can hold either sentinel
or a number. -/

inductive JsVal where
  | undef : JsVal
  | jsNull : JsVal
  | num : Int → JsVal
deriving Repr, DecidableEq

/-- The guard at the top of `chunk` (core.ts lines 52–54):
`if (initialValue === undefined || initialValue === null) throw new
Error("Initial value cannot be undefined or null.")` — construction rejects
**both** sentinels. -/
def chunkCtor (v : JsVal) : Except String JsVal :=
  if v = .undef ∨ v = .jsNull then
    .error "Initial value cannot be undefined or null."
  else .ok v

/-- The guard at the top of `set` (src/core.ts lines 64–67, and equally the
entry check of `processMiddleware`, utils.ts lines 350–352):
`if (newValue === null || newValue === undefined) throw new Error("Value
cannot be null or undefined.")`. -/
def setValueCheck (v : JsVal) : Except String JsVal :=
  if v = .jsNull ∨ v = .undef then
    .error "Value cannot be null or undefined."
  else .ok v

/-- **C6, counterexample.** `null` is **not** permitted as an initial value:
constructing a cell with the explicit empty marker fails with the same
InvalidValue error as the fully-absent sentinel, even though `null` is a
distinct value from `undefined`.  The claim "a dedicated empty/null marker
(null) is permitted as an initial value and as a value supplied to set" is
false on the code. -/
theorem chunk_ctor_rejects_null :
    chunkCtor .jsNull = .error "Initial value cannot be undefined or null." ∧
      JsVal.jsNull ≠ JsVal.undef ∧
      setValueCheck .jsNull = .error "Value cannot be null or undefined." := by
  refine ⟨rfl, by decide, rfl⟩

/-- **C6, amended.** Cell construction fails with an InvalidValue error
exactly when the initial value is `undefined` **or** `null`, and every
`set` likewise rejects both sentinels at entry, so a cell's stored value is
never `undefined` and never `null`. -/
theorem chunk_rejects_both_sentinels (v : JsVal) :
    ((∃ e, chunkCtor v = .error e) ↔ (v = .undef ∨ v = .jsNull)) ∧
    ((∃ e, setValueCheck v = .error e) ↔ (v = .undef ∨ v = .jsNull)) ∧
    (∀ w, chunkCtor v = .ok w → w ≠ .undef ∧ w ≠ .jsNull) ∧
    (∀ w, setValueCheck v = .ok w → w ≠ .undef ∧ w ≠ .jsNull) := by
  refine ⟨?_, ?_, ?_, ?_⟩
  · unfold chunkCtor
    by_cases h : v = .undef ∨ v = .jsNull <;> simp [h]
  · unfold setValueCheck
    by_cases h : v = .jsNull ∨ v = .undef <;> simp [h] <;> tauto
  · intro w hw
    unfold chunkCtor at hw
    by_cases h : v = .undef ∨ v = .jsNull
    · simp [h] at hw
    · simp [h] at hw
      subst hw
      exact ⟨fun h' => h (Or.inl h'), fun h' => h (Or.inr h')⟩
  · intro w hw
    unfold setValueCheck at hw
    by_cases h : v = .jsNull ∨ v = .undef
    · simp [h] at hw
    · simp [h] at hw
      subst hw
      exact ⟨fun h' => h (Or.inr h'), fun h' => h (Or.inl h')⟩

/-- Witness for `chunk_rejects_both_sentinels` at a concrete value. -/
theorem chunk_rejects_both_sentinels_witness :
    ((∃ e, chunkCtor (.num 3) = .error e) ↔
      (JsVal.num 3 = .undef ∨ JsVal.num 3 = .jsNull)) ∧
    ((∃ e, setValueCheck (.num 3) = .error e) ↔
      (JsVal.num 3 = .undef ∨ JsVal.num 3 = .jsNull)) ∧
    (∀ w, chunkCtor (.num 3) = .ok w → w ≠ .undef ∧ w ≠ .jsNull) ∧
    (∀ w, setValueCheck (.num 3) = .ok w → w ≠ .undef ∧ w ≠ .jsNull) :=
  chunk_rejects_both_sentinels (.num 3)

/-! ## Read-only derived cells (C7)

`computed` (computed.ts line 76) and `select` (selector.ts lines 55–61,
first variant) both return objects whose `set` (and for selectors also
`reset`) closures consist of a single `throw` statement, executed before
any state is touched. -/

/-- `set` of a Computed (computed.ts line 76):
`set: () => { throw new Error('Cannot set values directly on computed.
Modify the source chunk instead.'); }`. -/
def computedSet (_v : Int) (_s : SubSt) : Except String SubSt :=
  .error "Cannot set values directly on computed. Modify the source chunk instead."

/-- `set` of a Selector (selector.ts lines 55–57). -/
def selectorSet (_v : Int) (_s : SubSt) : Except String SubSt :=
  .error "Cannot set values directly on a selector. Modify the source chunk instead."

/-- `reset` of a Selector (selector.ts lines 60–62). -/
def selectorReset (_s : SubSt) : Except String SubSt :=
  .error "Cannot reset a selector chunk. Reset the source chunk instead."

/-- Running a state transition under a `try`/`catch` at the caller of
`set`: an exception leaves the state exactly as it was. -/
def runCaught (op : SubSt → Except String SubSt) (s : SubSt) :
    Option String × SubSt :=
  match op s with
  | .error e => (some e, s)
  | .ok s' => (none, s')

/-- **C7.** `set` on a Computed and `set`/`reset` on a Selector always throw
an ImmutableValue error; since the closure throws before touching anything,
the value observable through `get` is unchanged afterwards and the
notification log gains no entry (no subscriber is notified). -/
theorem computed_selector_immutable (v : Int) (s : SubSt) :
    (∃ e, computedSet v s = .error e) ∧
    (∃ e, selectorSet v s = .error e) ∧
    (∃ e, selectorReset s = .error e) ∧
    (runCaught (computedSet v) s).2 = s ∧
    (runCaught (selectorSet v) s).2 = s ∧
    (runCaught selectorReset s).2 = s ∧
    (runCaught (computedSet v) s).2.value = s.value ∧
    (runCaught (computedSet v) s).2.log = s.log ∧
    (runCaught (selectorSet v) s).2.log = s.log ∧
    (runCaught selectorReset s).2.log = s.log :=
  ⟨⟨_, rfl⟩, ⟨_, rfl⟩, ⟨_, rfl⟩, rfl, rfl, rfl, rfl, rfl, rfl, rfl⟩

end Stunk

namespace Stunk

/-! ## Async state machine (`src/core/asyncChunk.ts`)

Embeds `fetchData` (lines 131–193) and the `reload`/`refresh` entry points
(lines 220–229) for a parameterless fetcher (`expectsParams = false`, so
`hasValidParams` is always true).  The fetcher is modelled as a function
from the attempt index to that attempt's outcome; `Date.now()` is the
parameter `now` (constant during one fetch); awaited sleeps and scheduled
timers are recorded as events. -/

structure FetchSt (T E : Type) where
  loading : Bool
  error : Option E
  data : Option T
  lastFetched : Option Nat

/-- Observable events of one `fetchData` run: each execution of the fetcher
(`attempt`), each `setTimeout(resolve, retryDelay)` sleep between attempts
(`delay`), the `setCacheTimeout()` scheduling after a success
(`cacheTimeout`), and the `onError` callback invocation (`errorCb`). -/
inductive FEv where
  | attempt : Nat → FEv
  | delay : Nat → FEv
  | cacheTimeout : FEv
  | errorCb : FEv
deriving Repr, DecidableEq

/-- The options of `asyncChunk` that `fetchData` reads (lines 66–75). -/
structure FetchCfg where
  enabled : Bool
  retryCount : Nat
  retryDelay : Nat
  staleTime : Nat
  cacheTime : Nat
  hasOnError : Bool

/-- `isStale` (lines 102–106): true when never fetched, else when
`Date.now() - lastFetched > staleTime`. -/
def isStale (staleTime now : Nat) (s : FetchSt T E) : Bool :=
  match s.lastFetched with
  | none => true
  | some t => decide (staleTime < now - t)

def FEv.isAttempt : FEv → Bool
  | .attempt _ => true
  | _ => false

def FEv.isDelay : FEv → Bool
  | .delay _ => true
  | _ => false

/-- `fetchData(params, retries, force)` (lines 131–193) for a parameterless
fetcher: bail out when disabled; bail out when not forcing, the data is not
stale, data is non-null and a stale time is configured; otherwise publish
`{loading: true, error: null}`, run the fetcher, and either store the
success `{loading: false, error: null, data, lastFetched: now}` (scheduling
the cache timeout when `cacheTime > 0`) or, on a failure with retries left,
sleep `retryDelay` and recurse with `retries - 1`; with no retries left
store the error with `loading: false`, keeping the current `data` and
`lastFetched`, and invoke `onError` when configured. -/
def fetchData (cfg : FetchCfg) (fetcher : Nat → Except E T) (now : Nat) :
    Nat → Bool → Nat → FetchSt T E × List FEv → FetchSt T E × List FEv
  | retries, force, k, (s, ev) =>
    if cfg.enabled = false then (s, ev)
    else if force = false ∧ isStale cfg.staleTime now s = false ∧
        s.data.isSome = true ∧ 0 < cfg.staleTime then (s, ev)
    else
      let s1 : FetchSt T E := { s with loading := true, error := none }
      let ev1 := ev ++ [.attempt k]
      match fetcher k with
      | .ok d =>
        ({ loading := false, error := none, data := some d, lastFetched := some now },
         if 0 < cfg.cacheTime then ev1 ++ [.cacheTimeout] else ev1)
      | .error e =>
        match retries with
        | r + 1 =>
          fetchData cfg fetcher now r force (k + 1) (s1, ev1 ++ [.delay cfg.retryDelay])
        | 0 =>
          ({ s1 with loading := false, error := some e },
           if cfg.hasOnError then ev1 ++ [.errorCb] else ev1)

/-- `reload` (lines 223–225): `fetchData(undefined, retryCount, true)`. -/
def reloadM (cfg : FetchCfg) (fetcher : Nat → Except E T) (now : Nat)
    (s : FetchSt T E) (ev : List FEv) : FetchSt T E × List FEv :=
  fetchData cfg fetcher now cfg.retryCount true 0 (s, ev)

/-- `refresh` (lines 227–229): `fetchData(undefined, retryCount, false)`. -/
def refreshM (cfg : FetchCfg) (fetcher : Nat → Except E T) (now : Nat)
    (s : FetchSt T E) (ev : List FEv) : FetchSt T E × List FEv :=
  fetchData cfg fetcher now cfg.retryCount false 0 (s, ev)

/-- The event trace of a run from attempt `k` with `r` retries when every
attempt fails: attempts interleaved with the fixed retry delays. -/
def attemptsDelays (rd k : Nat) : Nat → List FEv
  | 0 => [.attempt k]
  | r + 1 => .attempt k :: .delay rd :: attemptsDelays rd (k + 1) r

/-- Unfolding `fetchData` when it bails out because the chunk is disabled. -/
theorem fetchData_disabled (cfg : FetchCfg) (fetcher : Nat → Except E T)
    (now r : Nat) (force : Bool) (k : Nat) (s : FetchSt T E) (ev : List FEv)
    (h1 : cfg.enabled = false) :
    fetchData cfg fetcher now r force k (s, ev) = (s, ev) := by
  rw [fetchData]; simp [h1]

/-- Unfolding `fetchData` when the freshness guard bails out. -/
theorem fetchData_fresh (cfg : FetchCfg) (fetcher : Nat → Except E T)
    (now r : Nat) (force : Bool) (k : Nat) (s : FetchSt T E) (ev : List FEv)
    (h2 : force = false ∧ isStale cfg.staleTime now s = false ∧
      s.data.isSome = true ∧ 0 < cfg.staleTime) :
    fetchData cfg fetcher now r force k (s, ev) = (s, ev) := by
  rw [fetchData]
  by_cases h1 : cfg.enabled = false <;> simp [h1, h2]

/-- Unfolding `fetchData` on a successful attempt. -/
theorem fetchData_ok (cfg : FetchCfg) (fetcher : Nat → Except E T)
    (now r : Nat) (force : Bool) (k : Nat) (s : FetchSt T E) (ev : List FEv)
    (d : T) (h1 : cfg.enabled = true)
    (h2 : ¬(force = false ∧ isStale cfg.staleTime now s = false ∧
      s.data.isSome = true ∧ 0 < cfg.staleTime))
    (hfk : fetcher k = .ok d) :
    fetchData cfg fetcher now r force k (s, ev) =
      ({ loading := false, error := none, data := some d, lastFetched := some now },
       if 0 < cfg.cacheTime then ev ++ [.attempt k, .cacheTimeout]
       else ev ++ [.attempt k]) := by
  rw [fetchData]
  simp only [h1, Bool.true_eq_false, if_false, h2, if_false, hfk]
  by_cases hct : 0 < cfg.cacheTime <;> simp [hct]

/-- Unfolding `fetchData` on a failed attempt with retries left: sleep the
fixed delay, then recurse with one retry fewer. -/
theorem fetchData_err_retry (cfg : FetchCfg) (fetcher : Nat → Except E T)
    (now r : Nat) (force : Bool) (k : Nat) (s : FetchSt T E) (ev : List FEv)
    (e : E) (h1 : cfg.enabled = true)
    (h2 : ¬(force = false ∧ isStale cfg.staleTime now s = false ∧
      s.data.isSome = true ∧ 0 < cfg.staleTime))
    (hfk : fetcher k = .error e) :
    fetchData cfg fetcher now (r + 1) force k (s, ev) =
      fetchData cfg fetcher now r force (k + 1)
        ({ s with loading := true, error := none },
         ev ++ [.attempt k, .delay cfg.retryDelay]) := by
  rw [fetchData]
  simp [h1, h2, hfk]

/-- Unfolding `fetchData` on a failed attempt with no retries left: store
the error, keep `data` and `lastFetched`, fire `onError` if configured. -/
theorem fetchData_err_last (cfg : FetchCfg) (fetcher : Nat → Except E T)
    (now : Nat) (force : Bool) (k : Nat) (s : FetchSt T E) (ev : List FEv)
    (e : E) (h1 : cfg.enabled = true)
    (h2 : ¬(force = false ∧ isStale cfg.staleTime now s = false ∧
      s.data.isSome = true ∧ 0 < cfg.staleTime))
    (hfk : fetcher k = .error e) :
    fetchData cfg fetcher now 0 force k (s, ev) =
      ({ loading := false, error := some e, data := s.data,
         lastFetched := s.lastFetched },
       if cfg.hasOnError then ev ++ [.attempt k, .errorCb]
       else ev ++ [.attempt k]) := by
  rw [fetchData]
  simp only [h1, Bool.true_eq_false, if_false, h2, if_false, hfk]
  by_cases hcb : cfg.hasOnError <;> simp [hcb]

/-- A fetch whose attempts all fail walks through `retries + 1` attempts
with the fixed delay between them and ends in the stored-error state,
preserving `data` and `lastFetched`. -/
theorem fetchData_all_fail (cfg : FetchCfg) (fetcher : Nat → Except E T)
    (errs : Nat → E) (now : Nat) (hen : cfg.enabled = true)
    (hf : ∀ i, fetcher i = .error (errs i)) :
    ∀ r k (s : FetchSt T E) ev, s.lastFetched = none →
      fetchData cfg fetcher now r false k (s, ev) =
        ({ loading := false, error := some (errs (k + r)), data := s.data,
           lastFetched := none },
         (ev ++ attemptsDelays cfg.retryDelay k r) ++
           (if cfg.hasOnError then [.errorCb] else [])) := by
  have hguard : ∀ (s : FetchSt T E), s.lastFetched = none →
      ¬((false : Bool) = false ∧ isStale cfg.staleTime now s = false ∧
        s.data.isSome = true ∧ 0 < cfg.staleTime) := by
    intro s hlf h
    rw [isStale, hlf] at h
    simp at h
  intro r
  induction r with
  | zero =>
    intro k s ev hlf
    rw [fetchData_err_last cfg fetcher now false k s ev (errs k) hen
      (hguard s hlf) (hf k)]
    rw [hlf, attemptsDelays]
    by_cases hcb : cfg.hasOnError <;> simp [hcb]
  | succ r ih =>
    intro k s ev hlf
    rw [fetchData_err_retry cfg fetcher now r false k s ev (errs k) hen
      (hguard s hlf) (hf k)]
    rw [ih (k + 1) { s with loading := true, error := none }
      (ev ++ [FEv.attempt k, FEv.delay cfg.retryDelay]) hlf]
    have harith : k + 1 + r = k + (r + 1) := by omega
    simp [harith, attemptsDelays]

/-- Every event produced by `fetchData` is appended after the incoming
event list. -/
theorem fetchData_ev_mono (cfg : FetchCfg) (fetcher : Nat → Except E T)
    (now : Nat) :
    ∀ r force k (s : FetchSt T E) ev, ∃ tail,
      (fetchData cfg fetcher now r force k (s, ev)).2 = ev ++ tail := by
  intro r
  induction r with
  | zero =>
    intro force k s ev
    by_cases h1 : cfg.enabled = false
    · exact ⟨[], by rw [fetchData_disabled _ _ _ _ _ _ _ _ h1]; simp⟩
    · have hen : cfg.enabled = true := by revert h1; cases cfg.enabled <;> simp
      by_cases h2 : force = false ∧ isStale cfg.staleTime now s = false ∧
          s.data.isSome = true ∧ 0 < cfg.staleTime
      · exact ⟨[], by rw [fetchData_fresh _ _ _ _ _ _ _ _ h2]; simp⟩
      · cases hfk : fetcher k with
        | ok d =>
          rw [fetchData_ok _ _ _ _ _ _ _ _ _ hen h2 hfk]
          by_cases hct : 0 < cfg.cacheTime
          · exact ⟨[.attempt k, .cacheTimeout], by simp [hct]⟩
          · exact ⟨[.attempt k], by simp [hct]⟩
        | error e =>
          rw [fetchData_err_last _ _ _ _ _ _ _ _ hen h2 hfk]
          by_cases hcb : cfg.hasOnError
          · exact ⟨[.attempt k, .errorCb], by simp [hcb]⟩
          · exact ⟨[.attempt k], by simp [hcb]⟩
  | succ r ih =>
    intro force k s ev
    by_cases h1 : cfg.enabled = false
    · exact ⟨[], by rw [fetchData_disabled _ _ _ _ _ _ _ _ h1]; simp⟩
    · have hen : cfg.enabled = true := by revert h1; cases cfg.enabled <;> simp
      by_cases h2 : force = false ∧ isStale cfg.staleTime now s = false ∧
          s.data.isSome = true ∧ 0 < cfg.staleTime
      · exact ⟨[], by rw [fetchData_fresh _ _ _ _ _ _ _ _ h2]; simp⟩
      · cases hfk : fetcher k with
        | ok d =>
          rw [fetchData_ok _ _ _ _ _ _ _ _ _ hen h2 hfk]
          by_cases hct : 0 < cfg.cacheTime
          · exact ⟨[.attempt k, .cacheTimeout], by simp [hct]⟩
          · exact ⟨[.attempt k], by simp [hct]⟩
        | error e =>
          rw [fetchData_err_retry _ _ _ _ _ _ _ _ _ hen h2 hfk]
          obtain ⟨tail, htail⟩ := ih force (k + 1)
            { s with loading := true, error := none }
            (ev ++ [.attempt k, .delay cfg.retryDelay])
          rw [htail]
          exact ⟨[.attempt k, .delay cfg.retryDelay] ++ tail, by simp⟩

end Stunk

namespace Stunk

theorem attemptsDelays_countA (rd : Nat) :
    ∀ r k, (attemptsDelays rd k r).countP FEv.isAttempt = r + 1 := by
  intro r
  induction r with
  | zero => intro k; simp [attemptsDelays, FEv.isAttempt]
  | succ r ih =>
    intro k
    simp [attemptsDelays, List.countP_cons, FEv.isAttempt, FEv.isDelay, ih (k + 1)]

theorem attemptsDelays_countD (rd : Nat) :
    ∀ r k, (attemptsDelays rd k r).countP FEv.isDelay = r := by
  intro r
  induction r with
  | zero => intro k; simp [attemptsDelays, FEv.isDelay]
  | succ r ih =>
    intro k
    simp [attemptsDelays, List.countP_cons, FEv.isAttempt, FEv.isDelay, ih (k + 1)]

theorem attemptsDelays_delay_mem (rd : Nat) :
    ∀ r k m, FEv.delay m ∈ attemptsDelays rd k r → m = rd := by
  intro r
  induction r with
  | zero => intro k m h; simp [attemptsDelays] at h
  | succ r ih =>
    intro k m h
    simp only [attemptsDelays, List.mem_cons] at h
    rcases h with h | h | h
    · cases h
    · cases h; rfl
    · exact ih (k + 1) m h

/-- Whenever `fetchData` passes its guards it executes at least the first
attempt, whatever the fetcher returns and however many retries remain. -/
theorem fetchData_attempts (cfg : FetchCfg) (fetcher : Nat → Except E T)
    (now r : Nat) (force : Bool) (k : Nat) (s : FetchSt T E) (ev : List FEv)
    (hen : cfg.enabled = true)
    (h2 : ¬(force = false ∧ isStale cfg.staleTime now s = false ∧
      s.data.isSome = true ∧ 0 < cfg.staleTime)) :
    FEv.attempt k ∈ (fetchData cfg fetcher now r force k (s, ev)).2 := by
  cases r with
  | zero =>
    cases hfk : fetcher k with
    | ok d =>
      rw [fetchData_ok _ _ _ _ _ _ _ _ _ hen h2 hfk]
      by_cases hct : 0 < cfg.cacheTime <;> simp [hct]
    | error e =>
      rw [fetchData_err_last _ _ _ _ _ _ _ _ hen h2 hfk]
      by_cases hcb : cfg.hasOnError <;> simp [hcb]
  | succ r =>
    cases hfk : fetcher k with
    | ok d =>
      rw [fetchData_ok _ _ _ _ _ _ _ _ _ hen h2 hfk]
      by_cases hct : 0 < cfg.cacheTime <;> simp [hct]
    | error e =>
      rw [fetchData_err_retry _ _ _ _ _ _ _ _ _ hen h2 hfk]
      obtain ⟨tail, htail⟩ := fetchData_ev_mono cfg fetcher now r force (k + 1)
        { s with loading := true, error := none }
        (ev ++ [FEv.attempt k, FEv.delay cfg.retryDelay])
      rw [htail]
      simp

/-- **C3.** Retry lifecycle of a fetch from a never-fetched state.  With
`retryCount = 2` and a fetcher that fails on attempts 0 and 1 and succeeds
on attempt 2, the fetch ends in the success state (data stored, `lastFetched`
timestamp set, `loading` false, `error` null) after exactly 3 attempts, with
the fixed `retryDelay` between consecutive attempts.  With a fetcher whose
attempts all fail, all `n + 1` attempts run (`n` being the retry budget),
the final error is stored with `loading` false, the previously held `data`
is preserved, every inter-attempt delay equals `retryDelay`, and the
`onError` callback fires. -/
theorem asyncChunk_retry_lifecycle (cfg : FetchCfg)
    (f1 f2 : Nat → Except E T) (d : T) (e0 e1 : E) (errs : Nat → E)
    (n now : Nat) (s0 : FetchSt T E)
    (hen : cfg.enabled = true) (hret : cfg.retryCount = 2)
    (hon : cfg.hasOnError = true) (hlf : s0.lastFetched = none)
    (h0 : f1 0 = .error e0) (h1 : f1 1 = .error e1) (h2 : f1 2 = .ok d)
    (hall : ∀ i, f2 i = .error (errs i)) :
    ((fetchData cfg f1 now cfg.retryCount false 0 (s0, [])).1 =
      { loading := false, error := none, data := some d,
        lastFetched := some now }) ∧
    ((fetchData cfg f1 now cfg.retryCount false 0 (s0, [])).2.countP
      FEv.isAttempt = 3) ∧
    ((fetchData cfg f1 now cfg.retryCount false 0 (s0, [])).2.countP
      FEv.isDelay = 2) ∧
    (∀ m, FEv.delay m ∈ (fetchData cfg f1 now cfg.retryCount false 0
      (s0, [])).2 → m = cfg.retryDelay) ∧
    ((fetchData cfg f2 now n false 0 (s0, [])).1 =
      { loading := false, error := some (errs n), data := s0.data,
        lastFetched := none }) ∧
    ((fetchData cfg f2 now n false 0 (s0, [])).2.countP
      FEv.isAttempt = n + 1) ∧
    ((fetchData cfg f2 now n false 0 (s0, [])).2.countP FEv.isDelay = n) ∧
    (∀ m, FEv.delay m ∈ (fetchData cfg f2 now n false 0 (s0, [])).2 →
      m = cfg.retryDelay) ∧
    FEv.errorCb ∈ (fetchData cfg f2 now n false 0 (s0, [])).2 := by
  have hguard : ∀ (s : FetchSt T E), s.lastFetched = none →
      ¬((false : Bool) = false ∧ isStale cfg.staleTime now s = false ∧
        s.data.isSome = true ∧ 0 < cfg.staleTime) := by
    intro s hlf' h
    rw [isStale, hlf'] at h
    simp at h
  have hrun1 : fetchData cfg f1 now cfg.retryCount false 0 (s0, []) =
      ({ loading := false, error := none, data := some d,
         lastFetched := some now },
       if 0 < cfg.cacheTime then
         [FEv.attempt 0, FEv.delay cfg.retryDelay, FEv.attempt 1,
          FEv.delay cfg.retryDelay, FEv.attempt 2, FEv.cacheTimeout]
       else
         [FEv.attempt 0, FEv.delay cfg.retryDelay, FEv.attempt 1,
          FEv.delay cfg.retryDelay, FEv.attempt 2]) := by
    have hlf1 : (⟨true, none, s0.data, s0.lastFetched⟩ : FetchSt T E).lastFetched
        = none := hlf
    rw [hret]
    calc fetchData cfg f1 now 2 false 0 (s0, [])
        = fetchData cfg f1 now 1 false 1
            (⟨true, none, s0.data, s0.lastFetched⟩,
             [FEv.attempt 0, FEv.delay cfg.retryDelay]) := by
          simpa using fetchData_err_retry cfg f1 now 1 false 0 s0 [] e0 hen
            (hguard s0 hlf) h0
      _ = fetchData cfg f1 now 0 false 2
            (⟨true, none, s0.data, s0.lastFetched⟩,
             [FEv.attempt 0, FEv.delay cfg.retryDelay, FEv.attempt 1,
              FEv.delay cfg.retryDelay]) := by
          simpa using fetchData_err_retry cfg f1 now 0 false 1
            ⟨true, none, s0.data, s0.lastFetched⟩
            [FEv.attempt 0, FEv.delay cfg.retryDelay] e1 hen
            (hguard _ hlf1) h1
      _ = ({ loading := false, error := none, data := some d,
             lastFetched := some now },
           if 0 < cfg.cacheTime then
             [FEv.attempt 0, FEv.delay cfg.retryDelay, FEv.attempt 1,
              FEv.delay cfg.retryDelay, FEv.attempt 2, FEv.cacheTimeout]
           else
             [FEv.attempt 0, FEv.delay cfg.retryDelay, FEv.attempt 1,
              FEv.delay cfg.retryDelay, FEv.attempt 2]) := by
          have hstep := fetchData_ok cfg f1 now 0 false 2
            ⟨true, none, s0.data, s0.lastFetched⟩
            [FEv.attempt 0, FEv.delay cfg.retryDelay, FEv.attempt 1,
             FEv.delay cfg.retryDelay] d hen (hguard _ hlf1) h2
          by_cases hct : 0 < cfg.cacheTime <;> simp [hct] at hstep ⊢ <;>
            exact hstep
  have hrun2 := fetchData_all_fail cfg f2 errs now hen hall n 0 s0 [] hlf
  rw [Nat.zero_add] at hrun2
  refine ⟨by rw [hrun1], ?_, ?_, ?_, by rw [hrun2], ?_, ?_, ?_, ?_⟩
  · rw [hrun1]
    by_cases hct : 0 < cfg.cacheTime <;>
      simp [hct, List.countP_cons, FEv.isAttempt, FEv.isDelay]
  · rw [hrun1]
    by_cases hct : 0 < cfg.cacheTime <;>
      simp [hct, List.countP_cons, FEv.isAttempt, FEv.isDelay]
  · rw [hrun1]
    by_cases hct : 0 < cfg.cacheTime <;> intro m hm <;>
      simp [hct] at hm <;> tauto
  · rw [hrun2]
    simp [hon, List.countP_append, attemptsDelays_countA, FEv.isAttempt,
      FEv.isDelay]
  · rw [hrun2]
    simp [hon, List.countP_append, attemptsDelays_countD, FEv.isAttempt,
      FEv.isDelay]
  · rw [hrun2]
    intro m hm
    simp only [hon, if_true, List.nil_append] at hm
    rcases List.mem_append.mp hm with hm | hm
    · exact attemptsDelays_delay_mem cfg.retryDelay n 0 m hm
    · simp at hm
  · rw [hrun2]
    simp [hon]

/-- Witness for `asyncChunk_retry_lifecycle` at concrete inputs. -/
theorem asyncChunk_retry_lifecycle_witness :
    ((fetchData ⟨true, 2, 7, 0, 0, true⟩
        (fun k => if k < 2 then .error "boom" else .ok (5 : Int)) 3
        (FetchCfg.retryCount ⟨true, 2, 7, 0, 0, true⟩) false 0
        (⟨false, none, none, none⟩, [])).1 =
      { loading := false, error := none, data := some 5,
        lastFetched := some 3 }) ∧
    ((fetchData ⟨true, 2, 7, 0, 0, true⟩
        (fun k => if k < 2 then .error "boom" else .ok (5 : Int)) 3
        (FetchCfg.retryCount ⟨true, 2, 7, 0, 0, true⟩) false 0
        (⟨false, none, none, none⟩, [])).2.countP FEv.isAttempt = 3) ∧
    ((fetchData ⟨true, 2, 7, 0, 0, true⟩
        (fun k => if k < 2 then .error "boom" else .ok (5 : Int)) 3
        (FetchCfg.retryCount ⟨true, 2, 7, 0, 0, true⟩) false 0
        (⟨false, none, none, none⟩, [])).2.countP FEv.isDelay = 2) ∧
    (∀ m, FEv.delay m ∈ (fetchData ⟨true, 2, 7, 0, 0, true⟩
        (fun k => if k < 2 then .error "boom" else .ok (5 : Int)) 3
        (FetchCfg.retryCount ⟨true, 2, 7, 0, 0, true⟩) false 0
        (⟨false, none, none, none⟩, [])).2 →
      m = FetchCfg.retryDelay ⟨true, 2, 7, 0, 0, true⟩) ∧
    ((fetchData ⟨true, 2, 7, 0, 0, true⟩
        (fun _ => (.error "down" : Except String Int)) 3 1 false 0
        (⟨false, none, none, none⟩, [])).1 =
      { loading := false, error := some ((fun _ : Nat => "down") 1),
        data := FetchSt.data (⟨false, none, none, none⟩ : FetchSt Int String),
        lastFetched := none }) ∧
    ((fetchData ⟨true, 2, 7, 0, 0, true⟩
        (fun _ => (.error "down" : Except String Int)) 3 1 false 0
        (⟨false, none, none, none⟩, [])).2.countP FEv.isAttempt = 1 + 1) ∧
    ((fetchData ⟨true, 2, 7, 0, 0, true⟩
        (fun _ => (.error "down" : Except String Int)) 3 1 false 0
        (⟨false, none, none, none⟩, [])).2.countP FEv.isDelay = 1) ∧
    (∀ m, FEv.delay m ∈ (fetchData ⟨true, 2, 7, 0, 0, true⟩
        (fun _ => (.error "down" : Except String Int)) 3 1 false 0
        (⟨false, none, none, none⟩, [])).2 →
      m = FetchCfg.retryDelay ⟨true, 2, 7, 0, 0, true⟩) ∧
    FEv.errorCb ∈ (fetchData ⟨true, 2, 7, 0, 0, true⟩
        (fun _ => (.error "down" : Except String Int)) 3 1 false 0
        (⟨false, none, none, none⟩, [])).2 :=
  asyncChunk_retry_lifecycle ⟨true, 2, 7, 0, 0, true⟩
    (fun k => if k < 2 then .error "boom" else .ok (5 : Int))
    (fun _ => (.error "down" : Except String Int)) 5 "boom" "boom"
    (fun _ => "down") 1 3
    ⟨false, none, none, none⟩ rfl rfl rfl rfl rfl rfl rfl (fun _ => rfl)

end Stunk

namespace Stunk

/-- **C8, counterexample.** At the staleness boundary the claim fails: with
`staleTime = 100`, data fetched at time `0` and `Date.now() = 100`, the
data's age `100` is **not** below `staleTime`, yet `refresh()` performs no
fetch and leaves the state unchanged — the guard in `fetchData` uses
`Date.now() - lastFetched > staleTime`, so an age exactly equal to
`staleTime` is still treated as fresh.  The claim's "fetches otherwise"
direction is false at this input. -/
theorem refresh_boundary_age_is_noop :
    refreshM ⟨true, 0, 0, 100, 0, false⟩ (fun _ => (.ok 1 : Except String Int))
        100 ⟨false, none, some 42, some 0⟩ [] =
      (⟨false, none, some 42, some 0⟩, []) ∧
    ¬ ((100 : Nat) - 0 < 100) ∧
    (refreshM ⟨true, 0, 0, 100, 0, false⟩ (fun _ => (.ok 1 : Except String Int))
        100 ⟨false, none, some 42, some 0⟩ []).2.countP FEv.isAttempt = 0 := by
  refine ⟨?_, by decide, ?_⟩ <;> rfl

/-- **C8, amended.** With a configured (positive) `staleTime` and the chunk
enabled, `refresh()` is a no-op (no fetch attempt, state unchanged) exactly
when data is cached (non-null), `lastFetched` is set and the age
`now - lastFetched` is at most `staleTime` (the boundary age equal to
`staleTime` is still fresh); it fetches when the age exceeds `staleTime`,
when nothing was ever fetched, or when `data` is null.  `reload()` always
performs a fetch regardless of age or staleness configuration. -/
theorem refresh_stale_gate (cfg : FetchCfg) (fetcher : Nat → Except E T)
    (now t : Nat) (s : FetchSt T E) (d : T)
    (hen : cfg.enabled = true) (hst : 0 < cfg.staleTime) :
    (s.data = some d → s.lastFetched = some t → now - t ≤ cfg.staleTime →
      refreshM cfg fetcher now s [] = (s, [])) ∧
    (s.lastFetched = some t → cfg.staleTime < now - t →
      FEv.attempt 0 ∈ (refreshM cfg fetcher now s []).2) ∧
    (s.lastFetched = none →
      FEv.attempt 0 ∈ (refreshM cfg fetcher now s []).2) ∧
    (s.data = none →
      FEv.attempt 0 ∈ (refreshM cfg fetcher now s []).2) ∧
    FEv.attempt 0 ∈ (reloadM cfg fetcher now s []).2 := by
  refine ⟨?_, ?_, ?_, ?_, ?_⟩
  · intro hd hl hage
    apply fetchData_fresh
    refine ⟨rfl, ?_, by rw [hd]; rfl, hst⟩
    rw [isStale, hl]
    simpa using hage
  · intro hl hage
    apply fetchData_attempts cfg fetcher now cfg.retryCount false 0 s [] hen
    intro ⟨_, hstale, _, _⟩
    rw [isStale, hl] at hstale
    simp [hage] at hstale
  · intro hl
    apply fetchData_attempts cfg fetcher now cfg.retryCount false 0 s [] hen
    intro ⟨_, hstale, _, _⟩
    rw [isStale, hl] at hstale
    cases hstale
  · intro hd
    apply fetchData_attempts cfg fetcher now cfg.retryCount false 0 s [] hen
    intro ⟨_, _, hsome, _⟩
    rw [hd] at hsome
    cases hsome
  · apply fetchData_attempts cfg fetcher now cfg.retryCount true 0 s [] hen
    intro ⟨hforce, _, _, _⟩
    cases hforce

/-- Witness for `refresh_stale_gate` at a concrete chunk. -/
theorem refresh_stale_gate_witness :
    (FetchSt.data (⟨false, none, some 42, some 0⟩ : FetchSt Int String) =
        some 42 →
      FetchSt.lastFetched (⟨false, none, some 42, some 0⟩ : FetchSt Int String) =
        some 0 →
      (30 : Nat) - 0 ≤ FetchCfg.staleTime ⟨true, 0, 9, 100, 0, false⟩ →
      refreshM ⟨true, 0, 9, 100, 0, false⟩
          (fun _ => (.ok 1 : Except String Int)) 30
          ⟨false, none, some 42, some 0⟩ [] =
        (⟨false, none, some 42, some 0⟩, [])) ∧
    (FetchSt.lastFetched (⟨false, none, some 42, some 0⟩ : FetchSt Int String) =
        some 0 →
      FetchCfg.staleTime ⟨true, 0, 9, 100, 0, false⟩ < (30 : Nat) - 0 →
      FEv.attempt 0 ∈ (refreshM ⟨true, 0, 9, 100, 0, false⟩
          (fun _ => (.ok 1 : Except String Int)) 30
          ⟨false, none, some 42, some 0⟩ []).2) ∧
    (FetchSt.lastFetched (⟨false, none, some 42, some 0⟩ : FetchSt Int String) =
        none →
      FEv.attempt 0 ∈ (refreshM ⟨true, 0, 9, 100, 0, false⟩
          (fun _ => (.ok 1 : Except String Int)) 30
          ⟨false, none, some 42, some 0⟩ []).2) ∧
    (FetchSt.data (⟨false, none, some 42, some 0⟩ : FetchSt Int String) =
        none →
      FEv.attempt 0 ∈ (refreshM ⟨true, 0, 9, 100, 0, false⟩
          (fun _ => (.ok 1 : Except String Int)) 30
          ⟨false, none, some 42, some 0⟩ []).2) ∧
    FEv.attempt 0 ∈ (reloadM ⟨true, 0, 9, 100, 0, false⟩
        (fun _ => (.ok 1 : Except String Int)) 30
        ⟨false, none, some 42, some 0⟩ []).2 :=
  refresh_stale_gate ⟨true, 0, 9, 100, 0, false⟩
    (fun _ => (.ok 1 : Except String Int)) 30 0
    ⟨false, none, some 42, some 0⟩ 42 rfl (by decide)

end Stunk

namespace Stunk

/-! ## History wrapper (`src/middleware/history.ts`)

`withHistory` keeps `history : T[]` (starting as `[baseChunk.get()]`), a
cursor `currentIndex`, and an `isHistoryAction` flag distinguishing the
write-throughs of `undo`/`redo` from external writes.  The wrapped chunk is
the `SubSt` cell model. -/

structure HistSt where
  stack : List Int
  idx : Nat
  isHistoryAction : Bool
  base : SubSt
deriving Repr, DecidableEq

/-- `set` of `withHistory` (history.ts lines 42–62): during a history
action, only write through to the base chunk.  Otherwise
`history.splice(currentIndex + 1)` drops the forward branch, the new value
is pushed, the over-limit prefix is evicted (the source's
`currentIndex = Math.max(0, currentIndex - removeCount)` adjustment is
immediately overwritten by the unconditional
`currentIndex = history.length - 1`), the cursor moves to the new end, and
the value is written through to the base chunk. -/
def hSet (maxHistory : Nat) (v : Int) (s : HistSt) : HistSt :=
  if s.isHistoryAction then { s with base := setM v s.base }
  else
    let st1 := s.stack.take (s.idx + 1) ++ [v]
    let st2 := if maxHistory < st1.length
      then st1.drop (st1.length - maxHistory) else st1
    { stack := st2, idx := st2.length - 1, isHistoryAction := false,
      base := setM v s.base }

/-- `undo` (history.ts lines 64–71): if `canUndo` (`currentIndex > 0`),
set the flag, decrement the cursor, write the entry at the new cursor
through (which, under the flag, only reaches the base chunk), restore the
flag.  The stack is untouched. -/
def undoM (s : HistSt) : HistSt :=
  if 0 < s.idx then
    { s with idx := s.idx - 1, base := setM (s.stack.getD (s.idx - 1) 0) s.base }
  else s

/-- `redo` (history.ts lines 73–80): mirror image of `undo`. -/
def redoM (s : HistSt) : HistSt :=
  if s.idx < s.stack.length - 1 then
    { s with idx := s.idx + 1, base := setM (s.stack.getD (s.idx + 1) 0) s.base }
  else s

/-- `getHistory` (history.ts line 86): a copy of the stack. -/
def getHistoryM (s : HistSt) : List Int := s.stack

/-- **C9.** External `set` while the cursor is mid-stack truncates the
forward branch: in general, a `set(v)` outside a history action with the
cursor at a valid position (and the stack within the size limit) replaces
the stack by its first `cursor + 1` entries followed by `v`, advances the
cursor to the new end and writes `v` through to the wrapped cell, while
`undo`/`redo` never change the stack (their write-throughs push no entry).
Concretely, from initial value `0` the sequence
`set(1), set(2), undo(), set(3)` (default `maxHistory = 100`) yields
history `[0, 1, 3]` — not `[0, 1, 2, 3]` — with the wrapped cell at `3`. -/
theorem history_truncates_forward_branch (mh : Nat) (s : HistSt) (v : Int)
    (hflag : s.isHistoryAction = false) (hidx : s.idx < s.stack.length)
    (hcap : s.idx + 2 ≤ mh) :
    ((hSet mh v s).stack = s.stack.take (s.idx + 1) ++ [v] ∧
     (hSet mh v s).idx = s.idx + 1 ∧
     (hSet mh v s).base = setM v s.base) ∧
    (∀ s' : HistSt, (undoM s').stack = s'.stack ∧ (redoM s').stack = s'.stack) ∧
    (getHistoryM
        (hSet 100 3 (undoM (hSet 100 2 (hSet 100 1
          ⟨[0], 0, false, ⟨0, [5], []⟩⟩)))) = [0, 1, 3] ∧
     getHistoryM
        (hSet 100 3 (undoM (hSet 100 2 (hSet 100 1
          ⟨[0], 0, false, ⟨0, [5], []⟩⟩)))) ≠ [0, 1, 2, 3] ∧
     (hSet 100 3 (undoM (hSet 100 2 (hSet 100 1
          ⟨[0], 0, false, ⟨0, [5], []⟩⟩)))).base.value = 3) := by
  have hlen : (s.stack.take (s.idx + 1) ++ [v]).length = s.idx + 2 := by
    rw [List.length_append, List.length_take]
    simp
    omega
  have hnole : ¬ mh < (s.stack.take (s.idx + 1) ++ [v]).length := by
    rw [hlen]; omega
  refine ⟨?_, ?_, by decide, by decide, by decide⟩
  · rw [hSet, if_neg (by rw [hflag]; exact Bool.false_ne_true)]
    simp only [hnole, if_false]
    refine ⟨trivial, ?_, trivial⟩
    rw [hlen]
    omega
  · intro s'
    constructor
    · rw [undoM]
      by_cases h : 0 < s'.idx <;> simp [h]
    · rw [redoM]
      by_cases h : s'.idx < s'.stack.length - 1 <;> simp [h]

/-- Witness for `history_truncates_forward_branch` at a concrete state. -/
theorem history_truncates_forward_branch_witness :
    ((hSet 100 9 ⟨[0, 1], 0, false, ⟨0, [], []⟩⟩).stack =
        [0, 1].take (0 + 1) ++ [9] ∧
     (hSet 100 9 ⟨[0, 1], 0, false, ⟨0, [], []⟩⟩).idx = 0 + 1 ∧
     (hSet 100 9 ⟨[0, 1], 0, false, ⟨0, [], []⟩⟩).base =
        setM 9 ⟨0, [], []⟩) ∧
    (∀ s' : HistSt, (undoM s').stack = s'.stack ∧ (redoM s').stack = s'.stack) ∧
    (getHistoryM
        (hSet 100 3 (undoM (hSet 100 2 (hSet 100 1
          ⟨[0], 0, false, ⟨0, [5], []⟩⟩)))) = [0, 1, 3] ∧
     getHistoryM
        (hSet 100 3 (undoM (hSet 100 2 (hSet 100 1
          ⟨[0], 0, false, ⟨0, [5], []⟩⟩)))) ≠ [0, 1, 2, 3] ∧
     (hSet 100 3 (undoM (hSet 100 2 (hSet 100 1
          ⟨[0], 0, false, ⟨0, [5], []⟩⟩)))).base.value = 3) :=
  history_truncates_forward_branch 100 ⟨[0, 1], 0, false, ⟨0, [], []⟩⟩ 9
    rfl (by decide) (by decide)

end Stunk

namespace Stunk

/-! ## Batch scheduler (`src/core/core.ts` lines 21–46 and 60–73)

The module-level batching state — `isBatching`, the `dirtyChunks` set (a JS
`Set<number>`, i.e. an insertion-ordered duplicate-free list of chunk ids)
and the `chunkRegistry` — together with every cell's current value and the
notification log.  `subs` maps each chunk id to its (fixed) subscriber
tags; a log entry `(id, cb, v)` is subscriber `cb` of chunk `id` invoked
with value `v`. -/

structure BatchSt where
  isBatching : Bool
  dirty : List Nat
  values : Nat → Int
  log : List (Nat × Nat × Int)

/-- `dirtyChunks.add(chunkId)`: a JS `Set` keeps first-insertion order and
ignores re-adds. -/
def addDirty (id : Nat) (d : List Nat) : List Nat :=
  if id ∈ d then d else d ++ [id]

/-- `notify` of one chunk (core.ts lines 60–62): invoke each subscriber
with the chunk's current value. -/
def notifyCell (subs : Nat → List Nat) (id : Nat) (s : BatchSt) : BatchSt :=
  { s with log := s.log ++ (subs id).map (fun c => (id, c, s.values id)) }

/-- `set` of a chunk (core.ts lines 77–112, literal value, no middleware)
at the whole-world level: the `!==` change check, then `notifySubscribers`
(lines 66–73) — skip when there are no subscribers, mark dirty while
batching, notify immediately otherwise. -/
def setCell (subs : Nat → List Nat) (id : Nat) (v : Int) (s : BatchSt) :
    BatchSt :=
  if v = s.values id then s
  else
    let s' := { s with values := fun n => if n = id then v else s.values n }
    if (subs id).isEmpty then s'
    else if s'.isBatching then { s' with dirty := addDirty id s'.dirty }
    else notifyCell subs id s'

/-- The `finally` block of `batch` (core.ts lines 36–44) when the call was
the outermost one: `isBatching = false`, snapshot `dirtyChunks`, clear it,
then `notify` each snapshotted chunk through the registry. -/
def flushBatch (subs : Nat → List Nat) (s : BatchSt) : BatchSt :=
  s.dirty.foldl (fun acc id => notifyCell subs id acc)
    { s with isBatching := false, dirty := [] }

/-- Code running inside `batch(callback)`: `set` calls on any cells,
statements in sequence, nested `batch` calls, and a `throw`. -/
inductive Cmd where
  | setC : Nat → Int → Cmd
  | throwC : Cmd
  | skip : Cmd
  | seq : Cmd → Cmd → Cmd
  | batchC : Cmd → Cmd

/-- Run a command: `some ()` in the first component signals an exception
propagating.  `batchC` is `batch` (core.ts lines 30–46): remember
`wasBatchingBefore`, run the callback with `isBatching = true`, and in the
`finally` block — on normal exit and on a throw alike — flush only if this
was the outermost call. -/
def runCmd (subs : Nat → List Nat) : Cmd → BatchSt → Option Unit × BatchSt
  | .setC id v, s => (none, setCell subs id v s)
  | .throwC, s => (some (), s)
  | .skip, s => (none, s)
  | .seq a b, s =>
    match runCmd subs a s with
    | (some e, s') => (some e, s')
    | (none, s') => runCmd subs b s'
  | .batchC c, s =>
    let was := s.isBatching
    let r := runCmd subs c { s with isBatching := true }
    if was then r else (r.1, flushBatch subs r.2)

theorem addDirty_nodup (id : Nat) (d : List Nat) (h : d.Nodup) :
    (addDirty id d).Nodup := by
  rw [addDirty]
  by_cases hm : id ∈ d
  · simpa [hm]
  · simp [hm, List.nodup_append, h]

/-- Flushing in closed form: restore the flag, clear the dirty set, and
append one notification per subscriber per dirty chunk, each carrying the
chunk's value at flush time. -/
theorem flushBatch_eq (subs : Nat → List Nat) (s : BatchSt) :
    flushBatch subs s =
      { isBatching := false, dirty := [], values := s.values,
        log := s.log ++ s.dirty.flatMap
          (fun i => (subs i).map fun c => (i, c, s.values i)) } := by
  have aux : ∀ (l : List Nat) (acc : BatchSt),
      l.foldl (fun a id => notifyCell subs id a) acc =
        { acc with log := acc.log ++ l.flatMap (fun i =>
            (subs i).map fun c => (i, c, acc.values i)) } := by
    intro l
    induction l with
    | nil => intro acc; simp
    | cons i l ih =>
      intro acc
      rw [List.foldl_cons, ih]
      simp [notifyCell]
  rw [flushBatch, aux]

/-- While `isBatching` is already set (i.e. inside some enclosing batch),
running any code — including nested `batch` calls, which skip their flush
because `wasBatchingBefore` is true — produces **no** notification at all,
leaves the flag set, and keeps the dirty set duplicate-free. -/
theorem runCmd_batching (subs : Nat → List Nat) (c : Cmd) :
    ∀ s : BatchSt, s.isBatching = true →
      (runCmd subs c s).2.isBatching = true ∧
      (runCmd subs c s).2.log = s.log ∧
      (s.dirty.Nodup → (runCmd subs c s).2.dirty.Nodup) := by
  induction c with
  | setC id v =>
    intro s hb
    simp only [runCmd]
    rw [setCell]
    by_cases hv : v = s.values id
    · simp [hv, hb]
    · rw [if_neg hv]
      by_cases hemp : (subs id).isEmpty
      · rw [if_pos hemp]
        exact ⟨hb, rfl, fun h => h⟩
      · rw [if_neg hemp, if_pos hb]
        exact ⟨hb, rfl, fun h => addDirty_nodup id s.dirty h⟩
  | throwC => intro s hb; simp [runCmd, hb]
  | skip => intro s hb; simp [runCmd, hb]
  | seq a b iha ihb =>
    intro s hb
    simp only [runCmd]
    cases hra : runCmd subs a s with
    | mk e1 s1 =>
      obtain ⟨ha1, ha2, ha3⟩ := iha s hb
      rw [hra] at ha1 ha2 ha3
      cases e1 with
      | some u => simpa using ⟨ha1, ha2, ha3⟩
      | none =>
        obtain ⟨hb1, hb2, hb3⟩ := ihb s1 ha1
        exact ⟨hb1, by rw [hb2, ha2], fun hnd => hb3 (ha3 hnd)⟩
  | batchC c ihc =>
    intro s hb
    simp only [runCmd, hb, if_true]
    exact ihc { s with isBatching := true } rfl

theorem countP_map_fst_ne (l : List Nat) (i id cb : Nat) (x : Int)
    (h : i ≠ id) :
    ((l.map fun c => ((i, c, x) : Nat × Nat × Int)).countP
      (fun en => en.1 == id && en.2.1 == cb)) = 0 := by
  rw [List.countP_map]
  apply List.countP_eq_zero.mpr
  intro c _
  simp [Function.comp, h]

theorem countP_flat_not_mem (subs : Nat → List Nat) (f : Nat → Int)
    (id cb : Nat) :
    ∀ d : List Nat, id ∉ d →
      ((d.flatMap (fun i => (subs i).map fun c =>
          ((i, c, f i) : Nat × Nat × Int))).countP
        (fun en => en.1 == id && en.2.1 == cb)) = 0 := by
  intro d
  induction d with
  | nil => intro _; simp
  | cons i d ih =>
    intro hmem
    rw [List.flatMap_cons, List.countP_append]
    have h1 : i ≠ id := by rintro rfl; exact hmem (List.mem_cons_self i d)
    have h2 : id ∉ d := fun hx => hmem (List.mem_cons_of_mem i hx)
    rw [countP_map_fst_ne _ _ _ _ _ h1, ih h2]

theorem countP_flat_le_one (subs : Nat → List Nat) (f : Nat → Int)
    (id cb : Nat) (hsubs : ∀ i, (subs i).Nodup) :
    ∀ d : List Nat, d.Nodup →
      ((d.flatMap (fun i => (subs i).map fun c =>
          ((i, c, f i) : Nat × Nat × Int))).countP
        (fun en => en.1 == id && en.2.1 == cb)) ≤ 1 := by
  intro d
  induction d with
  | nil => intro _; simp
  | cons i d ih =>
    intro hnd
    rw [List.flatMap_cons, List.countP_append]
    obtain ⟨hni, hnd'⟩ := List.nodup_cons.mp hnd
    by_cases hi : i = id
    · subst hi
      rw [countP_flat_not_mem subs f i cb d hni, Nat.add_zero]
      rw [List.countP_map]
      have : ((fun en => en.1 == i && en.2.1 == cb) ∘
          fun c => ((i, c, f i) : Nat × Nat × Int)) = (fun c => c == cb) := by
        funext c; simp [Function.comp]
      rw [this, ← List.count]
      exact List.nodup_iff_count_le_one.mp (hsubs i) cb
    · rw [countP_map_fst_ne _ _ _ _ _ hi, Nat.zero_add]
      exact ih hnd'

end Stunk

namespace Stunk

/-- **C1.** Batch coalescing.  For any code `body` made of `set` calls,
sequencing, nested `batch` calls and a possible `throw`, run as
`batch(body)` from a quiescent state: (1) while the body runs — nested
batches included — no subscriber is invoked at all (the intermediate log
stays empty and the batching flag stays set: nested `batch` calls never
flush on their own exit); (2) `batch(body)` returns exactly the body's
exception status (a throw propagates) and the state flushed in the
`finally` block, so the cells dirtied before a throw are still flushed;
(3) after the flush the batching flag is restored and the dirty set
cleared; (4) the whole log consists of one notification per subscriber per
dirtied chunk; (5) each subscriber of each written chunk is invoked at most
once; and (6) every invocation carries that chunk's final value at flush
time. -/
theorem batch_flushes_once (subs : Nat → List Nat) (v0 : Nat → Int)
    (body : Cmd) (hsubs : ∀ id, (subs id).Nodup) :
    (runCmd subs body ⟨true, [], v0, []⟩).2.log = [] ∧
    (runCmd subs body ⟨true, [], v0, []⟩).2.isBatching = true ∧
    runCmd subs (.batchC body) ⟨false, [], v0, []⟩ =
      ((runCmd subs body ⟨true, [], v0, []⟩).1,
       flushBatch subs (runCmd subs body ⟨true, [], v0, []⟩).2) ∧
    (flushBatch subs (runCmd subs body ⟨true, [], v0, []⟩).2).isBatching
      = false ∧
    (flushBatch subs (runCmd subs body ⟨true, [], v0, []⟩).2).dirty = [] ∧
    (flushBatch subs (runCmd subs body ⟨true, [], v0, []⟩).2).log =
      (runCmd subs body ⟨true, [], v0, []⟩).2.dirty.flatMap (fun i =>
        (subs i).map fun c =>
          (i, c, (runCmd subs body ⟨true, [], v0, []⟩).2.values i)) ∧
    (∀ id cb,
      ((flushBatch subs (runCmd subs body ⟨true, [], v0, []⟩).2).log.countP
        (fun en => en.1 == id && en.2.1 == cb)) ≤ 1) ∧
    (∀ en ∈ (flushBatch subs (runCmd subs body ⟨true, [], v0, []⟩).2).log,
      en.2.2 =
        (flushBatch subs (runCmd subs body ⟨true, [], v0, []⟩).2).values
          en.1) := by
  obtain ⟨hbf, hlog, hnd⟩ :=
    runCmd_batching subs body ⟨true, [], v0, []⟩ rfl
  have hlog' : (runCmd subs body ⟨true, [], v0, []⟩).2.log = [] := hlog
  have hmidnd : (runCmd subs body ⟨true, [], v0, []⟩).2.dirty.Nodup :=
    hnd List.nodup_nil
  have hbatch : runCmd subs (.batchC body) ⟨false, [], v0, []⟩ =
      ((runCmd subs body ⟨true, [], v0, []⟩).1,
       flushBatch subs (runCmd subs body ⟨true, [], v0, []⟩).2) := by
    simp only [runCmd]
    rfl
  refine ⟨hlog', hbf, hbatch, ?_, ?_, ?_, ?_, ?_⟩
  · rw [flushBatch_eq]
  · rw [flushBatch_eq]
  · rw [flushBatch_eq, hlog']
    simp
  · intro id cb
    rw [flushBatch_eq, hlog']
    simp only [List.nil_append]
    exact countP_flat_le_one subs
      (runCmd subs body ⟨true, [], v0, []⟩).2.values id cb hsubs
      (runCmd subs body ⟨true, [], v0, []⟩).2.dirty hmidnd
  · intro en hen
    rw [flushBatch_eq, hlog'] at hen
    rw [flushBatch_eq]
    simp only [List.nil_append, List.mem_flatMap] at hen
    obtain ⟨i, _, hmap⟩ := hen
    obtain ⟨c, _, rfl⟩ := List.mem_map.mp hmap
    rfl

/-- Concrete subscriber map for the batch witness: cell `0` has
subscribers `10, 11`, cell `1` has subscriber `12`. -/
def wSubs : Nat → List Nat :=
  fun id => if id = 0 then [10, 11] else if id = 1 then [12] else []

/-- Concrete initial values for the batch witness. -/
def wVals : Nat → Int := fun _ => 0

/-- Concrete batched code for the batch witness: write cell `0` twice,
write cell `1` inside a nested batch, then throw. -/
def wBody : Cmd :=
  .seq (.setC 0 5) (.seq (.batchC (.setC 1 7)) (.seq (.setC 0 9) .throwC))

/-- Witness for `batch_flushes_once`: two cells (`0` with subscribers
`10, 11`; `1` with subscriber `12`), batched code writing cell `0` twice,
writing cell `1` inside a nested batch, and then throwing. -/
theorem batch_flushes_once_witness :
    ((runCmd wSubs wBody ⟨true, [], wVals, []⟩).2.log = [] ∧
    (runCmd wSubs wBody ⟨true, [], wVals, []⟩).2.isBatching = true ∧
    runCmd wSubs (.batchC wBody) ⟨false, [], wVals, []⟩ =
      ((runCmd wSubs wBody ⟨true, [], wVals, []⟩).1,
       flushBatch wSubs (runCmd wSubs wBody ⟨true, [], wVals, []⟩).2) ∧
    (flushBatch wSubs (runCmd wSubs wBody ⟨true, [], wVals, []⟩).2).isBatching
      = false ∧
    (flushBatch wSubs (runCmd wSubs wBody ⟨true, [], wVals, []⟩).2).dirty
      = [] ∧
    (flushBatch wSubs (runCmd wSubs wBody ⟨true, [], wVals, []⟩).2).log =
      (runCmd wSubs wBody ⟨true, [], wVals, []⟩).2.dirty.flatMap (fun i =>
        (wSubs i).map fun c =>
          (i, c, (runCmd wSubs wBody ⟨true, [], wVals, []⟩).2.values i)) ∧
    (∀ id cb,
      ((flushBatch wSubs (runCmd wSubs wBody ⟨true, [], wVals, []⟩).2).log.countP
        (fun en => en.1 == id && en.2.1 == cb)) ≤ 1) ∧
    (∀ en ∈ (flushBatch wSubs (runCmd wSubs wBody ⟨true, [], wVals, []⟩).2).log,
      en.2.2 =
        (flushBatch wSubs (runCmd wSubs wBody ⟨true, [], wVals, []⟩).2).values
          en.1)) :=
  batch_flushes_once wSubs wVals wBody
    (by
      intro id
      unfold wSubs
      by_cases h0 : id = 0 <;> by_cases h1 : id = 1 <;> simp [h0, h1])

end Stunk

namespace Stunk

/-! ## Diamond dependency graph (`src/core/computed.ts` lines 23–89)

The concrete object graph of the diamond-dependency property:

* `A = chunk(a0)` — a plain cell; its subscribers, in insertion order, are
  the recompute callbacks of `B` and `C` (computed.ts lines 61–66);
* `B = computed([A], fB)` and `C = computed([A], fC)` — each holding
  `dependencyValues` (`bDep`/`cDep`), `cachedValue` (`bCached`/`cCached`),
  the internal `computedChunk` value (`bChunk`/`cChunk`, whose sole
  subscriber is `D`'s callback) and the `isDirty` flag;
* `D = computed([B, C], fD)` — same fields, `dDepB`/`dDepC` being
  `dependencyValues`, with one external subscriber on its chunk.

Every comparison the source performs on numbers (`!==`, and the
`typeof !== 'object'` fast path of `recompute`, lines 50–55) is decidable
`Int` equality.  The log records each execution of `D`'s `computeFn`
(with the `dependencyValues` it was applied to) and each invocation of the
external subscriber.  Because the source's callback cascade is general
recursion through the heap, the model is fuel-indexed; the theorems
exhibit a sufficient fuel. -/

inductive DEv where
  | dComputed : Int → Int → DEv
  | extCall : Int → DEv
deriving Repr, DecidableEq

structure DSt where
  aVal : Int
  bDep : Int
  bCached : Int
  bChunk : Int
  bDirty : Bool
  cDep : Int
  cCached : Int
  cChunk : Int
  cDirty : Bool
  dDepB : Int
  dDepC : Int
  dCached : Int
  dChunk : Int
  dDirty : Bool
  log : List DEv
deriving Repr, DecidableEq

/-- `set` of `D`'s internal chunk (core.ts lines 77–112): on a changed
value, store it and notify the chunk's one subscriber — the external
callback — with the new value. -/
def dChunkWrite (v : Int) (s : DSt) : DSt :=
  if v = s.dChunk then s
  else { s with dChunk := v, log := s.log ++ [DEv.extCall v] }

/-- The call sites of the recursive callback cascade: `get`, `recompute`
and the internal-chunk `set` of `B` and `C`, `D`'s dependency callback, and
`D`'s `recompute`. -/
inductive DCall where
  | bGetC : DCall
  | cGetC : DCall
  | bRecC : DCall
  | cRecC : DCall
  | bSetC : Int → DCall
  | cSetC : Int → DCall
  | cbDC : DCall
  | dRecC : DCall

/-- The callback cascade of the diamond, fuel-indexed (the source is
general recursion through the heap).  The `Int` result component is the
return value of the `get` calls (`0` is plumbing for the `void` calls).

* `bGetC`/`cGetC` — `get` of computed `B`/`C` (computed.ts lines 70–73):
  recompute if dirty, then return the cached value.
* `bRecC`/`cRecC` — `recompute` of `B`/`C` (lines 36–59) with the single
  dependency `A`: read `A.get()`, update `dependencyValues`/`hasChanges`;
  on a change run `computeFn` and, if the result differs from
  `cachedValue`, store it and `originalSet` it into the internal chunk
  (notifying `D`'s callback); `isDirty` is cleared afterwards, inside the
  `hasChanges` branch only.
* `bSetC v`/`cSetC v` — `set` of `B`'s/`C`'s internal chunk (core.ts lines
  77–112): on a changed value store it and notify its one subscriber,
  `D`'s callback.
* `cbDC` — `D`'s dependency-subscription callback (computed.ts lines
  61–66): `isDirty = true; recompute()`.
* `dRecC` — `recompute` of `D` with dependencies `[B, C]`: read `B.get()`
  then `C.get()` (each read may recompute lazily), update
  `dependencyValues`/`hasChanges` per dependency in order; on any change
  run `computeFn` over the updated `dependencyValues` (logged as a
  `dComputed` event with its arguments) and, if the result differs, store
  it and write it to `D`'s chunk, notifying the external subscriber. -/
def dRun (fB fC : Int → Int) (fD : Int → Int → Int) :
    Nat → DCall → DSt → Option (DSt × Int)
  | 0, _, _ => none
  | fu + 1, c, s =>
    match c with
    | .bGetC =>
      if s.bDirty then
        match dRun fB fC fD fu .bRecC s with
        | none => none
        | some (s', _) => some (s', s'.bCached)
      else some (s, s.bCached)
    | .cGetC =>
      if s.cDirty then
        match dRun fB fC fD fu .cRecC s with
        | none => none
        | some (s', _) => some (s', s'.cCached)
      else some (s, s.cCached)
    | .bRecC =>
      if s.aVal = s.bDep then some (s, 0)
      else
        let s1 := { s with bDep := s.aVal }
        if fB s1.bDep = s1.bCached then some ({ s1 with bDirty := false }, 0)
        else
          match dRun fB fC fD fu (.bSetC (fB s1.bDep))
              { s1 with bCached := fB s1.bDep } with
          | none => none
          | some (s2, _) => some ({ s2 with bDirty := false }, 0)
    | .cRecC =>
      if s.aVal = s.cDep then some (s, 0)
      else
        let s1 := { s with cDep := s.aVal }
        if fC s1.cDep = s1.cCached then some ({ s1 with cDirty := false }, 0)
        else
          match dRun fB fC fD fu (.cSetC (fC s1.cDep))
              { s1 with cCached := fC s1.cDep } with
          | none => none
          | some (s2, _) => some ({ s2 with cDirty := false }, 0)
    | .bSetC v =>
      if v = s.bChunk then some (s, 0)
      else dRun fB fC fD fu .cbDC { s with bChunk := v }
    | .cSetC v =>
      if v = s.cChunk then some (s, 0)
      else dRun fB fC fD fu .cbDC { s with cChunk := v }
    | .cbDC => dRun fB fC fD fu .dRecC { s with dDirty := true }
    | .dRecC =>
      match dRun fB fC fD fu .bGetC s with
      | none => none
      | some (t, vb) =>
        let hb : Bool := decide (¬ vb = t.dDepB)
        let t1 := if vb = t.dDepB then t else { t with dDepB := vb }
        match dRun fB fC fD fu .cGetC t1 with
        | none => none
        | some (u, vc) =>
          let hc : Bool := decide (¬ vc = u.dDepC)
          let u1 := if vc = u.dDepC then u else { u with dDepC := vc }
          if hb || hc then
            let u2 := { u1 with
              log := u1.log ++ [DEv.dComputed u1.dDepB u1.dDepC] }
            if fD u2.dDepB u2.dDepC = u2.dCached then
              some ({ u2 with dDirty := false }, 0)
            else
              some ({ dChunkWrite (fD u2.dDepB u2.dDepC)
                { u2 with dCached := fD u2.dDepB u2.dDepC } with
                  dDirty := false }, 0)
          else some (u1, 0)

/-- `get` of computed `B`. -/
def bGet (fB fC : Int → Int) (fD : Int → Int → Int) (fu : Nat) (s : DSt) :
    Option (DSt × Int) :=
  dRun fB fC fD fu .bGetC s

/-- `get` of computed `C`. -/
def cGet (fB fC : Int → Int) (fD : Int → Int → Int) (fu : Nat) (s : DSt) :
    Option (DSt × Int) :=
  dRun fB fC fD fu .cGetC s

/-- `D`'s dependency-subscription callback. -/
def cbD (fB fC : Int → Int) (fD : Int → Int → Int) (fu : Nat) (s : DSt) :
    Option (DSt × Int) :=
  dRun fB fC fD fu .cbDC s

/-- `A`'s subscription callback for `B` (the closure registered during
`B`'s construction): `isDirty = true; recompute()`. -/
def cbB (fB fC : Int → Int) (fD : Int → Int → Int) (fu : Nat) (s : DSt) :
    Option (DSt × Int) :=
  dRun fB fC fD fu .bRecC { s with bDirty := true }

/-- `A`'s subscription callback for `C`. -/
def cbC (fB fC : Int → Int) (fD : Int → Int → Int) (fu : Nat) (s : DSt) :
    Option (DSt × Int) :=
  dRun fB fC fD fu .cRecC { s with cDirty := true }

/-- `set` on the root cell `A` (core.ts lines 77–112): on a changed value,
store it and notify `A`'s subscribers in insertion order — `B`'s callback,
then `C`'s. -/
def aSet (fB fC : Int → Int) (fD : Int → Int → Int) (fu : Nat) (v : Int)
    (s : DSt) : Option DSt :=
  if v = s.aVal then some s
  else
    match cbB fB fC fD fu { s with aVal := v } with
    | none => none
    | some (s2, _) => (cbC fB fC fD fu s2).map (fun r => r.1)

/-- The immediate invocation of the external subscriber performed by
`D.subscribe(ext)` (core.ts line 119). -/
def dExtSubscribe (s : DSt) : DSt :=
  { s with log := s.log ++ [DEv.extCall s.dChunk] }

/-- Construction of the diamond, in source order.  `A = chunk(a0)`;
`B = computed([A], fB)` initialises `dependencyValues = [a0]`,
`cachedValue = fB a0`, its chunk, `isDirty = false`, and subscribes `cbB`
to `A` — which invokes `cbB` immediately; `C` likewise; `D` reads `B.get()`
and `C.get()` for its initial `dependencyValues`, computes its cache and
chunk, and subscribes its callback to `B`'s and `C`'s chunks (each
subscription invoking the callback immediately); finally the external
subscriber is subscribed to `D`, which invokes it once with the current
value. -/
def construct (fB fC : Int → Int) (fD : Int → Int → Int) (fu : Nat)
    (a0 : Int) : Option DSt :=
  let s0 : DSt :=
    ⟨a0, a0, fB a0, fB a0, false, a0, fC a0, fC a0, false,
     0, 0, 0, 0, false, []⟩
  match cbB fB fC fD fu s0 with
  | none => none
  | some (s1, _) =>
  match cbC fB fC fD fu s1 with
  | none => none
  | some (s2, _) =>
  match bGet fB fC fD fu s2 with
  | none => none
  | some (s3, vb) =>
  match cGet fB fC fD fu s3 with
  | none => none
  | some (s4, vc) =>
  let s5 := { s4 with dDepB := vb, dDepC := vc, dCached := fD vb vc,
                      dChunk := fD vb vc, dDirty := false }
  match cbD fB fC fD fu s5 with
  | none => none
  | some (s6, _) =>
  match cbD fB fC fD fu s6 with
  | none => none
  | some (s7, _) => some (dExtSubscribe s7)

end Stunk

namespace Stunk

def DEv.isExt : DEv → Bool
  | .extCall _ => true
  | _ => false

/-- The state after constructing the diamond over `A = chunk(a0)` and
subscribing the external subscriber to `D`: every computed holds its
settled initial value, and each `isDirty` flag is left `true` by the
immediate subscription callbacks (the callback sets `isDirty = true` and
the following `recompute` finds no dependency change, so the
`isDirty = false` reset inside the `hasChanges` branch never runs); the
log holds the one immediate invocation of the external subscriber. -/
def constructSt (fB fC : Int → Int) (fD : Int → Int → Int) (a0 : Int) :
    DSt :=
  ⟨a0, a0, fB a0, fB a0, true, a0, fC a0, fC a0, true,
   fB a0, fC a0, fD (fB a0) (fC a0), fD (fB a0) (fC a0), true,
   [DEv.extCall (fD (fB a0) (fC a0))]⟩

theorem construct_eval (fB fC : Int → Int) (fD : Int → Int → Int)
    (a0 : Int) :
    construct fB fC fD 32 a0 = some (constructSt fB fC fD a0) := by
  simp [construct, constructSt, cbB, cbC, cbD, bGet, cGet, dRun,
    dExtSubscribe]

/-- Evaluation of `A.set(a1)` on the constructed diamond when both `B`'s
and `C`'s values change. -/
theorem aSet_bc_change (fB fC : Int → Int) (fD : Int → Int → Int)
    (a0 a1 : Int) (hne : a1 ≠ a0)
    (hb : fB a1 ≠ fB a0) (hc : fC a1 ≠ fC a0) :
    aSet fB fC fD 32 a1 (constructSt fB fC fD a0) =
      some ⟨a1, a1, fB a1, fB a1, false, a1, fC a1, fC a1, true,
        fB a1, fC a1,
        (if fD (fB a1) (fC a1) = fD (fB a0) (fC a0)
          then fD (fB a0) (fC a0) else fD (fB a1) (fC a1)),
        (if fD (fB a1) (fC a1) = fD (fB a0) (fC a0)
          then fD (fB a0) (fC a0) else fD (fB a1) (fC a1)),
        false,
        [DEv.extCall (fD (fB a0) (fC a0)),
         DEv.dComputed (fB a1) (fC a1)] ++
        (if fD (fB a1) (fC a1) = fD (fB a0) (fC a0) then []
          else [DEv.extCall (fD (fB a1) (fC a1))]) ++
        [DEv.dComputed (fB a1) (fC a1)]⟩ := by
  by_cases hd : fD (fB a1) (fC a1) = fD (fB a0) (fC a0) <;>
    simp [aSet, constructSt, cbB, cbC, dRun, dChunkWrite, hne, hb, hc, hd]

end Stunk

namespace Stunk

/-- Evaluation of `A.set(a1)` on the constructed diamond when `B`'s value
changes and `C`'s does not. -/
theorem aSet_b_change (fB fC : Int → Int) (fD : Int → Int → Int)
    (a0 a1 : Int) (hne : a1 ≠ a0)
    (hb : fB a1 ≠ fB a0) (hc : fC a1 = fC a0) :
    aSet fB fC fD 32 a1 (constructSt fB fC fD a0) =
      some ⟨a1, a1, fB a1, fB a1, false, a1, fC a0, fC a0, true,
        fB a1, fC a0,
        (if fD (fB a1) (fC a0) = fD (fB a0) (fC a0)
          then fD (fB a0) (fC a0) else fD (fB a1) (fC a0)),
        (if fD (fB a1) (fC a0) = fD (fB a0) (fC a0)
          then fD (fB a0) (fC a0) else fD (fB a1) (fC a0)),
        false,
        [DEv.extCall (fD (fB a0) (fC a0)),
         DEv.dComputed (fB a1) (fC a0)] ++
        (if fD (fB a1) (fC a0) = fD (fB a0) (fC a0) then []
          else [DEv.extCall (fD (fB a1) (fC a0))])⟩ := by
  by_cases hd : fD (fB a1) (fC a0) = fD (fB a0) (fC a0) <;>
    simp [aSet, constructSt, cbB, cbC, dRun, dChunkWrite, hne, hb, hc, hd]

/-- Evaluation of `A.set(a1)` on the constructed diamond when `C`'s value
changes and `B`'s does not. -/
theorem aSet_c_change (fB fC : Int → Int) (fD : Int → Int → Int)
    (a0 a1 : Int) (hne : a1 ≠ a0)
    (hb : fB a1 = fB a0) (hc : fC a1 ≠ fC a0) :
    aSet fB fC fD 32 a1 (constructSt fB fC fD a0) =
      some ⟨a1, a1, fB a0, fB a0, false, a1, fC a1, fC a1, false,
        fB a0, fC a1,
        (if fD (fB a0) (fC a1) = fD (fB a0) (fC a0)
          then fD (fB a0) (fC a0) else fD (fB a0) (fC a1)),
        (if fD (fB a0) (fC a1) = fD (fB a0) (fC a0)
          then fD (fB a0) (fC a0) else fD (fB a0) (fC a1)),
        false,
        [DEv.extCall (fD (fB a0) (fC a0)),
         DEv.dComputed (fB a0) (fC a1)] ++
        (if fD (fB a0) (fC a1) = fD (fB a0) (fC a0) then []
          else [DEv.extCall (fD (fB a0) (fC a1))])⟩ := by
  by_cases hd : fD (fB a0) (fC a1) = fD (fB a0) (fC a0) <;>
    simp [aSet, constructSt, cbB, cbC, dRun, dChunkWrite, hne, hb, hc, hd]

/-- Evaluation of `A.set(a1)` on the constructed diamond when neither
`B`'s nor `C`'s value changes: no recompute of `D`, no notification. -/
theorem aSet_no_change (fB fC : Int → Int) (fD : Int → Int → Int)
    (a0 a1 : Int) (hne : a1 ≠ a0)
    (hb : fB a1 = fB a0) (hc : fC a1 = fC a0) :
    aSet fB fC fD 32 a1 (constructSt fB fC fD a0) =
      some ⟨a1, a1, fB a0, fB a0, false, a1, fC a0, fC a0, false,
        fB a0, fC a0, fD (fB a0) (fC a0), fD (fB a0) (fC a0), true,
        [DEv.extCall (fD (fB a0) (fC a0))]⟩ := by
  simp [aSet, constructSt, cbB, cbC, dRun, dChunkWrite, hne, hb, hc]

end Stunk

namespace Stunk

/-- **C2, amended.** Diamond settlement for the **first** value-changing
write after construction.  The per-write claim does not hold from every
reachable state (see the counterexample: once a write has changed only
`C`, leaving `C`'s dirty flag clear, the next write changing both `B` and
`C` notifies `D`'s subscriber twice, first with a stale-`C` value); it
does hold on the freshly constructed diamond, where the immediate
subscription callbacks have left every `isDirty` flag set, so `D`'s first
recompute pulls a fresh `C`.  For any compute functions and any write
`A.set(a1)` that changes `A`'s value on the freshly constructed diamond:
the construction has produced settled values everywhere (the log so far
holds only the immediate subscription invocation of the external
subscriber); after the write, `B`, `C` and `D` all hold their settled
values `fB a1`, `fC a1`, `fD (fB a1) (fC a1)`; during the write the
external subscriber of `D` is invoked **at most once**, and any such
invocation carries `D`'s settled final value; and every execution of `D`'s
compute function during the write is applied to the already-settled values
of `B` and `C` — i.e. `B` and `C` settle before `D` recomputes. -/
theorem diamond_single_notification (fB fC : Int → Int)
    (fD : Int → Int → Int) (a0 a1 : Int) (hne : a1 ≠ a0) :
    ∃ s1 s2,
      construct fB fC fD 32 a0 = some s1 ∧
      aSet fB fC fD 32 a1 s1 = some s2 ∧
      s1.log = [DEv.extCall (fD (fB a0) (fC a0))] ∧
      s2.bCached = fB a1 ∧ s2.bChunk = fB a1 ∧
      s2.cCached = fC a1 ∧ s2.cChunk = fC a1 ∧
      s2.dCached = fD (fB a1) (fC a1) ∧ s2.dChunk = fD (fB a1) (fC a1) ∧
      (s2.log.drop s1.log.length).countP DEv.isExt ≤ 1 ∧
      (∀ v, DEv.extCall v ∈ s2.log.drop s1.log.length →
        v = fD (fB a1) (fC a1)) ∧
      (∀ b c, DEv.dComputed b c ∈ s2.log.drop s1.log.length →
        b = fB a1 ∧ c = fC a1) := by
  rcases eq_or_ne (fB a1) (fB a0) with hb | hb <;>
    rcases eq_or_ne (fC a1) (fC a0) with hc | hc
  · refine ⟨_, _, construct_eval fB fC fD a0,
      aSet_no_change fB fC fD a0 a1 hne hb hc, ?_, ?_, ?_, ?_, ?_, ?_, ?_,
      ?_, ?_, ?_⟩ <;>
      simp [constructSt, DEv.isExt, hb, hc]
  · refine ⟨_, _, construct_eval fB fC fD a0,
      aSet_c_change fB fC fD a0 a1 hne hb hc, ?_, ?_, ?_, ?_, ?_, ?_, ?_,
      ?_, ?_, ?_⟩ <;>
      by_cases hd : fD (fB a0) (fC a1) = fD (fB a0) (fC a0) <;>
      simp [constructSt, DEv.isExt, hb, hc, hd]
  · refine ⟨_, _, construct_eval fB fC fD a0,
      aSet_b_change fB fC fD a0 a1 hne hb hc, ?_, ?_, ?_, ?_, ?_, ?_, ?_,
      ?_, ?_, ?_⟩ <;>
      by_cases hd : fD (fB a1) (fC a0) = fD (fB a0) (fC a0) <;>
      simp [constructSt, DEv.isExt, hb, hc, hd]
  · refine ⟨_, _, construct_eval fB fC fD a0,
      aSet_bc_change fB fC fD a0 a1 hne hb hc, ?_, ?_, ?_, ?_, ?_, ?_, ?_,
      ?_, ?_, ?_⟩ <;>
      by_cases hd : fD (fB a1) (fC a1) = fD (fB a0) (fC a0) <;>
      simp [constructSt, DEv.isExt, hb, hc, hd]

/-- Witness for `diamond_single_notification` with `fB = (· * 2)`,
`fC = (· * 3)`, `fD = (· + ·)`, `a0 = 10`, `a1 = 20`. -/
theorem diamond_single_notification_witness :
    ∃ s1 s2,
      construct (· * 2) (· * 3) (· + ·) 32 10 = some s1 ∧
      aSet (· * 2) (· * 3) (· + ·) 32 20 s1 = some s2 ∧
      s1.log = [DEv.extCall ((10 * 2 : Int) + (10 * 3 : Int))] ∧
      s2.bCached = (20 * 2 : Int) ∧ s2.bChunk = (20 * 2 : Int) ∧
      s2.cCached = (20 * 3 : Int) ∧ s2.cChunk = (20 * 3 : Int) ∧
      s2.dCached = (20 * 2 : Int) + (20 * 3 : Int) ∧
      s2.dChunk = (20 * 2 : Int) + (20 * 3 : Int) ∧
      (s2.log.drop s1.log.length).countP DEv.isExt ≤ 1 ∧
      (∀ v, DEv.extCall v ∈ s2.log.drop s1.log.length →
        v = (20 * 2 : Int) + (20 * 3 : Int)) ∧
      (∀ b c, DEv.dComputed b c ∈ s2.log.drop s1.log.length →
        b = (20 * 2 : Int) ∧ c = (20 * 3 : Int)) :=
  diamond_single_notification (· * 2) (· * 3) (· + ·) 10 20 (by decide)

end Stunk

namespace Stunk

/-- **C2, counterexample.** The per-write diamond property is false on the
code from reachable states.  With `fB = (x * x)`, `fC = id`,
`fD = (+)`: construct the diamond over `A = chunk(1)`; the write
`A.set(-1)` changes only `C` (since `fB (-1) = fB 1`), and `C`'s
`recompute` — reached lazily through `D`'s `get` — ends with
`isDirty_C = false`.  The single subsequent write `A.set(2)` (which
changes `A`'s value) then notifies `D`'s external subscriber **twice**:
once with the glitch value `3 = fD (fB 2) (fC (-1))` computed from the
already-settled `B` but a stale `C` (read through `C.get()` with the
dirty flag clear), and once with the settled `6 = fD (fB 2) (fC 2)`.
`D`'s compute function also runs once with the non-settled `C` argument
`-1 ≠ fC 2`.  This refutes "B and C both settle before D recomputes, and
D's subscribers are notified at most once per such write to A". -/
theorem diamond_second_write_notifies_twice :
    construct (fun x => x * x) (fun x => x) (fun b c => b + c) 32 1 =
      some ⟨1, 1, 1, 1, true, 1, 1, 1, true, 1, 1, 2, 2, true,
        [DEv.extCall 2]⟩ ∧
    aSet (fun x => x * x) (fun x => x) (fun b c => b + c) 32 (-1)
        ⟨1, 1, 1, 1, true, 1, 1, 1, true, 1, 1, 2, 2, true,
         [DEv.extCall 2]⟩ =
      some ⟨-1, -1, 1, 1, false, -1, -1, -1, false, 1, -1, 0, 0, false,
        [DEv.extCall 2, DEv.dComputed 1 (-1), DEv.extCall 0]⟩ ∧
    aSet (fun x => x * x) (fun x => x) (fun b c => b + c) 32 2
        ⟨-1, -1, 1, 1, false, -1, -1, -1, false, 1, -1, 0, 0, false,
         [DEv.extCall 2, DEv.dComputed 1 (-1), DEv.extCall 0]⟩ =
      some ⟨2, 2, 4, 4, false, 2, 2, 2, false, 4, 2, 6, 6, false,
        [DEv.extCall 2, DEv.dComputed 1 (-1), DEv.extCall 0,
         DEv.dComputed 4 (-1), DEv.extCall 3, DEv.dComputed 4 2,
         DEv.extCall 6]⟩ ∧
    ([DEv.dComputed 4 (-1), DEv.extCall 3, DEv.dComputed 4 2,
      DEv.extCall 6].countP DEv.isExt = 2) ∧
    ¬ ([DEv.dComputed 4 (-1), DEv.extCall 3, DEv.dComputed 4 2,
      DEv.extCall 6].countP DEv.isExt ≤ 1) ∧
    (3 : Int) ≠ (fun b c => b + c) ((fun x => x * x) (2 : Int))
      ((fun x => x) (2 : Int)) ∧
    (-1 : Int) ≠ (fun x => x) (2 : Int) := by
  refine ⟨rfl, rfl, rfl, by decide, by decide, by decide, by decide⟩

end Stunk
